import Mathlib

/-!
Verification of the core components of the Hack2 remediation system against its
specification: the command intake priority queue (`command_receiver.py`), the
CPF configuration store with backup/rollback (`cpf_manager.py`), the config
handler (`config_agent.py`), the rule-based router (`orchestrator.py`), and
the restart stage machine (`restart_agent_sdk.py`).

Python dictionaries are embedded as association lists with Python dict
semantics (insert overwrites in place, lookup finds the unique binding, pop
removes it); effectful calls (file copies, subprocesses, wall-clock reads)
are abstracted into explicit oracle environments, with an audit trace
recording which effects were invoked.
-/

namespace Hack2

/-! ## Association lists with Python `dict` semantics -/

section AList

variable {α : Type}

/-- Lookup `d[k]`: the value of the first binding of `k` (unique when keys
are nodup, as for a Python dict). -/
def alist_get (d : List (String × α)) (k : String) : Option α :=
  (d.find? (fun kv => kv.1 == k)).map (·.2)

/-- Assignment `d[k] = v`: overwrite the binding in place if the key exists, else
append a new binding (Python dict insertion order). -/
def alist_set : List (String × α) → String → α → List (String × α)
  | [], k, v => [(k, v)]
  | kv :: rest, k, v =>
    if kv.1 == k then (k, v) :: rest else kv :: alist_set rest k v

/-- Pop `d.pop(k)`: remove and return the binding of `k`; `none` models the
`KeyError` raised when the key is absent. -/
def alist_pop : List (String × α) → String → Option (α × List (String × α))
  | [], _ => none
  | kv :: rest, k =>
    if kv.1 == k then some (kv.2, rest)
    else (alist_pop rest k).map (fun p => (p.1, kv :: p.2))

end AList

/-! ## Data model: `RemediationCommand` (remediation_command.py) -/

/-- The closed `priority` literal set of `RemediationCommand`. -/
inductive Priority
  | low
  | medium
  | high
  | critical
deriving DecidableEq

/-- The `priority_order` dict of `_insert_by_priority`:
critical 0, high 1, medium 2, low 3. -/
def priorityRank : Priority → Nat
  | .critical => 0
  | .high => 1
  | .medium => 2
  | .low => 3

/-- The closed `action_type` literal set of `RemediationCommand`. -/
inductive ActionType
  | config_change
  | os_reconfig
  | restart
deriving DecidableEq

/-- A validated `RemediationCommand`. `command_id` is the `str()` of the
UUID (the queue keys its dict by that string). Parameter values are
modelled as strings, which covers every use the core makes of them. -/
structure Command where
  command_id : String
  action_type : ActionType
  target : String
  parameters : List (String × String)
  priority : Priority
  requester : Option String
deriving DecidableEq

/-- A raw command payload before pydantic validation: the fields as they
arrive in the JSON object. `priority = none` means the field was absent
(pydantic then applies the default `medium`). `command_id` is taken as
given by the caller. -/
structure RawCommand where
  command_id : String
  action_type : String
  target : String
  parameters : List (String × String)
  priority : Option String
  requester : Option String
deriving DecidableEq

/-- The `Literal` check on `action_type`. -/
def parse_action_type (s : String) : Option ActionType :=
  if s = "config_change" then some .config_change
  else if s = "os_reconfig" then some .os_reconfig
  else if s = "restart" then some .restart
  else none

/-- The `Literal` check on `priority`, with the `medium` default for an
absent field. -/
def parse_priority : Option String → Option Priority
  | none => some .medium
  | some s =>
    if s = "low" then some .low
    else if s = "medium" then some .medium
    else if s = "high" then some .high
    else if s = "critical" then some .critical
    else none

/-- Membership `k in v.keys()` for the parameters dict. -/
def has_param (ps : List (String × String)) (k : String) : Bool :=
  ps.any (fun kv => kv.1 == k)

/-- The `validate_parameters_by_action` field validator: required keys per
action type, plus the `mode` literal check for `restart`. -/
def validate_parameters (a : ActionType) (ps : List (String × String)) :
    Except String Unit :=
  match a with
  | .config_change =>
    if ["section", "key", "value"].all (has_param ps) then .ok ()
    else .error "config_change requires: section, key, value"
  | .os_reconfig =>
    if ["resource_type", "target_value"].all (has_param ps) then .ok ()
    else .error "os_reconfig requires: resource_type, target_value"
  | .restart =>
    match alist_get ps "mode" with
    | some m =>
      if m == "graceful" || m == "forced" then .ok ()
      else .error "restart mode must be graceful or forced"
    | none => .ok ()

/-- Validation `RemediationCommand.model_validate_json`: field checks in declaration
order (action_type literal, target length 1..100, parameters validator,
priority literal with default), short-circuiting at the first failure. -/
def validate_command (r : RawCommand) : Except String Command :=
  match parse_action_type r.action_type with
  | none => .error "action_type must be one of: config_change, os_reconfig, restart"
  | some a =>
    if r.target.length < 1 then .error "target must have at least 1 character"
    else if r.target.length > 100 then .error "target must have at most 100 characters"
    else
      match validate_parameters a r.parameters with
      | .error e => .error e
      | .ok _ =>
        match parse_priority r.priority with
        | none => .error "priority must be one of: low, medium, high, critical"
        | some p =>
          .ok ⟨r.command_id, a, r.target, r.parameters, p, r.requester⟩

/-! ## CommandReceiverService (command_receiver.py) -/

/-- The state of the receiver: `command_queue` (dict keyed by `str(command_id)`)
and `command_order` (the priority-ordered id list). -/
structure ReceiverState where
  command_queue : List (String × Command)
  command_order : List String
deriving DecidableEq

/-- Initial state, `CommandReceiverService.__init__`. -/
def empty_state : ReceiverState := ⟨[], []⟩

/-- The insertion-point scan of `_insert_by_priority`: walk
`command_order` from the front and insert `cid` immediately before the
first entry whose priority rank is strictly greater than `cr`; at the end
if none. A missing dict entry would raise `KeyError` in Python; it cannot
occur for queued ids and is skipped here. -/
def insert_order_scan (q : List (String × Command)) (cr : Nat) (cid : String) :
    List String → List String
  | [] => [cid]
  | x :: xs =>
    match alist_get q x with
    | some ex =>
      if cr < priorityRank ex.priority then cid :: x :: xs
      else x :: insert_order_scan q cr cid xs
    | none => x :: insert_order_scan q cr cid xs

/-- Conflict scan `_check_conflicts`: scan the current queue for the first
entry sharing the `target` of the command (exact string match); return its id. -/
def check_conflicts (st : ReceiverState) (c : Command) : Option String :=
  go st.command_order
where
  go : List String → Option String
    | [] => none
    | x :: xs =>
      match alist_get st.command_queue x with
      | some ex => if ex.target == c.target then some x else go xs
      | none => go xs

/-- The mutation performed on the accepted path of `receive_command`:
`self.command_queue[str(id)] = command` then `_insert_by_priority`. -/
def enqueue (st : ReceiverState) (c : Command) : ReceiverState :=
  let q := alist_set st.command_queue c.command_id c
  ⟨q, insert_order_scan q (priorityRank c.priority) c.command_id st.command_order⟩

/-- Python `list.index` (the id is always present where the code calls it). -/
def list_index_of (l : List String) (x : String) : Nat :=
  l.findIdx (· == x)

inductive ReceiveStatus
  | accepted
  | rejected
deriving DecidableEq

/-- The dict returned by `receive_command` (absent keys as `none`). -/
structure ReceiveResponse where
  status : ReceiveStatus
  command_id : Option String
  queue_position : Option Nat
  conflicts : Option Bool
  error : Option String
deriving DecidableEq

/-- Intake `receive_command`: validate, check conflicts against the current
queue, then enqueue; any validation failure is returned as `rejected`
with the error and the state untouched. -/
def receive_command (st : ReceiverState) (raw : RawCommand) :
    ReceiveResponse × ReceiverState :=
  match validate_command raw with
  | .error e =>
    ({ status := .rejected, command_id := none, queue_position := none,
       conflicts := none, error := some e }, st)
  | .ok c =>
    let conflict := check_conflicts st c
    let st' := enqueue st c
    ({ status := .accepted, command_id := some c.command_id,
       queue_position := some (list_index_of st'.command_order c.command_id + 1),
       conflicts := some conflict.isSome, error := none }, st')

/-- The outcome of one `get_next_command` call: `empty` models the `None`
return, `keyError` the `KeyError` escaping from `self.command_queue.pop`. -/
inductive DequeueResult
  | empty
  | got (c : Command)
  | keyError
deriving DecidableEq

/-- Dequeue `get_next_command`: pop the front of `command_order`, then pop that id
from the dict. On `KeyError` the order list has already been popped. -/
def get_next_command (st : ReceiverState) : DequeueResult × ReceiverState :=
  match st.command_order with
  | [] => (.empty, st)
  | cid :: rest =>
    match alist_pop st.command_queue cid with
    | some (c, q) => (.got c, ⟨q, rest⟩)
    | none => (.keyError, ⟨st.command_queue, rest⟩)

/-- Queue size, `get_queue_size`. -/
def get_queue_size (st : ReceiverState) : Nat :=
  st.command_order.length

/-- Enqueue a list of already-validated commands in order, starting from
the fresh receiver state. -/
def enqueue_all (cs : List Command) : ReceiverState :=
  cs.foldl enqueue empty_state

/-- Call `get_next_command` `n` times, collecting the results. -/
def dequeue_n : ReceiverState → Nat → List DequeueResult × ReceiverState
  | st, 0 => ([], st)
  | st, n + 1 =>
    let r := get_next_command st
    let rs := dequeue_n r.2 n
    (r.1 :: rs.1, rs.2)

/-! ## Abstract view of the priority queue

`insert_order_scan` manipulates ids through the dict; the lemmas below
relate it to this direct insertion on command lists: place the new command
immediately before the first existing entry of strictly greater rank
(i.e. strictly lower priority), after all entries of equal rank. -/

/-- Insertion before the first strictly-greater rank, as `_insert_by_priority`
does on ids. -/
def abs_insert (c : Command) : List Command → List Command
  | [] => [c]
  | x :: xs =>
    if priorityRank c.priority < priorityRank x.priority then c :: x :: xs
    else x :: abs_insert c xs

/-- The queue order produced by enqueuing `cs` in arrival order. -/
def priority_sort (cs : List Command) : List Command :=
  cs.foldl (fun l c => abs_insert c l) []

/-- The ids of a command list. -/
def cmd_ids (l : List Command) : List String :=
  l.map (·.command_id)

/-- Relation: `a` dequeues no later than `b`; its priority rank is no greater. -/
def rank_le (a b : Command) : Prop :=
  priorityRank a.priority ≤ priorityRank b.priority

/-! ## CPFManager (cpf_manager.py)

The store is the parsed CPF: sections (case-sensitive names) mapping to
key/value items. `configparser` lowercases option names (`optionxform`),
so item keys are stored and looked up lower-cased. Backups live in a
`backup_dir` modelled as a name-keyed map (a `shutil.copy2` to an existing
name overwrites it). Effectful failures (`copy2`, file parse, file write)
are abstracted into a `WriteEnv` oracle, and the file operations actually
performed are recorded in a trace. -/

/-- Python `str.lower` on one character (ASCII, which covers every key the
system handles). -/
def char_lower (c : Char) : Char :=
  if 65 ≤ c.toNat ∧ c.toNat ≤ 90 then Char.ofNat (c.toNat + 32) else c

/-- Python `str.lower`. -/
def str_lower (s : String) : String :=
  ⟨s.data.map char_lower⟩

/-- Parsed CPF content: sections to key/value items. -/
abbrev CPF := List (String × List (String × String))

/-- Read `config.get(section, key)` after `config.read`: section lookup is
case-sensitive, option keys are lower-cased by `optionxform`. -/
def cpf_get (cpf : CPF) (sec key : String) : Option String :=
  match alist_get cpf sec with
  | some items => alist_get items (str_lower key)
  | none => none

/-- Update: `config.add_section` (if absent) followed by `config.set`. -/
def cpf_set (cpf : CPF) (sec key value : String) : CPF :=
  match cpf with
  | [] => [(sec, [(str_lower key, value)])]
  | (name, items) :: rest =>
    if name == sec then (name, alist_set items (str_lower key) value) :: rest
    else (name, items) :: cpf_set rest sec key value

/-- The live CPF file plus the backup directory. -/
structure CPFState where
  live : CPF
  backups : List (String × CPF)
deriving DecidableEq

/-- Read `read_setting`: `None` both for a missing section/key and on a read
error. -/
def read_setting (st : CPFState) (sec key : String) : Option String :=
  cpf_get st.live sec key

/-- Rollback `restore_backup`: copy the named backup over the live file; `False`
when the copy raises (no such backup file). -/
def restore_backup (st : CPFState) (ref : String) : Bool × CPFState :=
  match alist_get st.backups ref with
  | some content => (true, ⟨content, st.backups⟩)
  | none => (false, st)

/-- Oracle for the effectful steps of one `write_setting` call:
whether the copy inside `create_backup` succeeds and the timestamped name it
produces, whether `config.read` parses the live file, and whether the
final file write succeeds. -/
structure WriteEnv where
  backupOk : Bool
  backupName : String
  readOk : Bool
  persistOk : Bool
deriving DecidableEq

/-- Audit trace of file operations performed by the store. -/
inductive FileOp
  | backupCreated (ref : String)
  | restored (ref : String)
  | persisted
deriving DecidableEq

/-- Result of `write_setting`: the `(success, backup_path)` pair, the
resulting file-system state, and the trace of file operations. -/
structure WriteOutcome where
  success : Bool
  backup_path : Option String
  state : CPFState
  trace : List FileOp
deriving DecidableEq

/-- The `except` handler of `write_setting`: attempt rollback iff a backup
reference exists, then return failure. -/
def write_fail (bp : Option String) (st : CPFState) (tr : List FileOp) :
    WriteOutcome :=
  match bp with
  | some ref => ⟨false, some ref, (restore_backup st ref).2, tr ++ [.restored ref]⟩
  | none => ⟨false, none, st, tr⟩

/-- Steps 2-5 of `write_setting`, after the backup decision: read the
current config (`config.read` can raise on a malformed file), capture the
old value — `config.has_option` returns `False` when the section is
absent, so this step never raises — create the section if absent, set the
new value (`cpf_set`), and write the file. Any exception goes to
`write_fail` with the step-1 backup reference. -/
def write_after_backup (env : WriteEnv) (st : CPFState)
    (sec key value : String) (bp : Option String) (tr : List FileOp) :
    WriteOutcome :=
  if env.readOk then
    if env.persistOk then
      ⟨true, bp, ⟨cpf_set st.live sec key value, st.backups⟩, tr ++ [.persisted]⟩
    else write_fail bp st tr
  else write_fail bp st tr

/-- Write `write_setting`: step 1 creates the backup when requested — a failing
`create_backup` raises with `backup_path` still `None`, so the handler
returns failure without any rollback — then steps 2-5 run with the backup
reference in hand. -/
def write_setting (env : WriteEnv) (st : CPFState)
    (sec key value : String) (create_backup : Bool) : WriteOutcome :=
  if create_backup then
    if env.backupOk then
      let ref := env.backupName
      let st1 : CPFState := ⟨st.live, alist_set st.backups ref st.live⟩
      write_after_backup env st1 sec key value (some ref) [.backupCreated ref]
    else ⟨false, none, st, []⟩
  else write_after_backup env st sec key value none []

/-- Restart requirement `requires_restart`: pure function of the two static sets. -/
def requires_restart (sec key : String) : Bool :=
  if sec ∈ ["Startup", "config"] then true
  else if str_lower key ∈ ["globals", "routines", "gmheap", "locksiz",
                           "genericheap", "wijdir", "database"] then true
  else false

/-! ## ConfigAgent (config_agent.py) -/

/-- Response `ConfigAgentResponse` as built by `ConfigAgent._execute_impl`. -/
structure ConfigResponse where
  success : Bool
  sec : String
  key : String
  old_value : Option String
  new_value : String
  requires_restart : Bool
  backup_path : Option String
  error_message : Option String
deriving DecidableEq

/-- Result of one config-change execution: the response, the resulting
file-system state, and the accumulated file-operation trace. -/
structure ConfigOutcome where
  resp : ConfigResponse
  state : CPFState
  trace : List FileOp
deriving DecidableEq

/-- Oracle for one `ConfigAgent._execute_impl` run: the `write_setting`
oracle plus the `validate_cpf` result (a file re-parse). -/
structure ConfigEnv where
  write : WriteEnv
  validateOk : Bool
deriving DecidableEq

/-- Handler `ConfigAgent._execute_impl` after command parsing: read the old value,
write with backup, fail fast on a failed write, validate the store and
roll back to the just-created backup when invalid, else report success
with the restart requirement. -/
def config_execute (env : ConfigEnv) (st : CPFState)
    (sec key value : String) : ConfigOutcome :=
  let old_value := read_setting st sec key
  let w := write_setting env.write st sec key value true
  if w.success = false then
    ⟨⟨false, sec, key, old_value, value, false, w.backup_path,
      some "Failed to write configuration setting"⟩, w.state, w.trace⟩
  else if env.validateOk = false then
    match w.backup_path with
    | some ref =>
      ⟨⟨false, sec, key, old_value, value, false, some ref,
        some "CPF validation failed, changes rolled back"⟩,
       (restore_backup w.state ref).2, w.trace ++ [.restored ref]⟩
    | none =>
      ⟨⟨false, sec, key, old_value, value, false, none,
        some "CPF validation failed, changes rolled back"⟩, w.state, w.trace⟩
  else
    ⟨⟨true, sec, key, old_value, value, requires_restart sec key,
      w.backup_path, none⟩, w.state, w.trace⟩

/-! ## OrchestratorAgent (orchestrator.py) -/

/-- Response `OrchestratorResponse` as built by the router. -/
structure RoutingDecision where
  agent_type : String
  command_str : String
  rationale : String
  requires_validation : Bool
  estimated_risk : String
deriving DecidableEq

/-- The `agent_map` dict of `_route_with_rules`. -/
def agent_map : List (String × String) :=
  [("config_change", "config"), ("os_reconfig", "os"), ("restart", "restart")]

/-- The `risk_map` dict of `_route_with_rules`. -/
def risk_map : List (String × String) :=
  [("config_change", "medium"), ("os_reconfig", "high"), ("restart", "high")]

/-- Router `_route_with_rules`: table lookups with defaults `none`/`medium`, the
rationale string, and `requires_validation` exactly when risk is not low.
`command_str` stands for `command.model_dump_json()`. -/
def route_with_rules (action_type command_str : String) : RoutingDecision :=
  let agent_type := (alist_get agent_map action_type).getD "none"
  let risk := (alist_get risk_map action_type).getD "medium"
  let rationale :=
    "Rule-based routing: " ++ action_type ++ " maps to " ++ agent_type ++ " agent"
  ⟨agent_type, command_str, rationale,
   if risk ≠ "low" then true else false, risk⟩

/-- Dispatch `OrchestratorAgent._execute_impl`: the advisory LLM path is an
external oracle; on its failure (`none`, i.e. the `except` branch) the
deterministic rule table decides. The correctness properties of the spec hold
against the deterministic fallback path. -/
def orchestrate (advisory : Option RoutingDecision)
    (action_type command_str : String) : RoutingDecision :=
  match advisory with
  | some r => r
  | none => route_with_rules action_type command_str

/-! ## RestartAgentSDK (restart_agent_sdk.py) -/

/-- Oracle for one restart invocation: the outcomes of the subprocess and
health-check calls (as functions of the budgets the code passes them) and
the wall-clock durations measured around them. -/
structure RestartEnv where
  drainResult : Nat → Nat
  shutdownResult : Bool → Nat → Bool
  startupResult : Bool
  validateResult : String
  shutdownDur : Nat
  startupDur : Nat

/-- The stages a restart invocation actually executed, in order. -/
inductive Stage
  | drain
  | shutdown
  | startup
  | validate
deriving DecidableEq

/-- Response `RestartAgentResponse` as built by the restart paths. -/
structure RestartResponse where
  success : Bool
  mode : String
  connections_drained : Nat
  shutdown_duration_seconds : Nat
  startup_duration_seconds : Nat
  operational_status : String
  error_message : Option String
deriving DecidableEq

/-- Graceful path `_graceful_restart`: drain with half the timeout, shutdown gracefully
with the other half, then start and validate; each failure short-circuits
with its `*_failed` status. -/
def graceful_restart (env : RestartEnv) (timeout_seconds : Nat) :
    RestartResponse × List Stage :=
  let drained := env.drainResult (timeout_seconds / 2)
  if env.shutdownResult true (timeout_seconds / 2) then
    if env.startupResult then
      let status := env.validateResult
      (⟨status == "operational", "graceful", drained, env.shutdownDur,
        env.startupDur, status,
        if status == "operational" then none
        else some "Post-startup validation failed"⟩,
       [.drain, .shutdown, .startup, .validate])
    else
      (⟨false, "graceful", drained, env.shutdownDur, env.startupDur,
        "startup_failed", some "Instance startup failed"⟩,
       [.drain, .shutdown, .startup])
  else
    (⟨false, "graceful", drained, env.shutdownDur, 0,
      "shutdown_failed", some "Graceful shutdown failed"⟩,
     [.drain, .shutdown])

/-- Forced path `_forced_restart`: no draining, forced shutdown with a fixed 10s
ceiling, then start and validate with the same short-circuiting. -/
def forced_restart (env : RestartEnv) : RestartResponse × List Stage :=
  if env.shutdownResult false 10 then
    if env.startupResult then
      let status := env.validateResult
      (⟨status == "operational", "forced", 0, env.shutdownDur,
        env.startupDur, status,
        if status == "operational" then none
        else some "Post-startup validation failed"⟩,
       [.shutdown, .startup, .validate])
    else
      (⟨false, "forced", 0, env.shutdownDur, env.startupDur,
        "startup_failed", some "Instance startup failed"⟩,
       [.shutdown, .startup])
  else
    (⟨false, "forced", 0, env.shutdownDur, 0,
      "shutdown_failed", some "Forced shutdown failed"⟩,
     [.shutdown])

/-! ## Concrete inputs used by examples and witnesses -/

/-- A low-priority restart command. -/
def cmdA : Command :=
  ⟨"cmd-a", .restart, "instance", [("mode", "graceful")], .low, none⟩

/-- A critical-priority config change. -/
def cmdB : Command :=
  ⟨"cmd-b", .config_change, "iris.cpf",
   [("section", "Startup"), ("key", "globals"), ("value", "20000")],
   .critical, none⟩

/-- A medium-priority OS reconfiguration. -/
def cmdC : Command :=
  ⟨"cmd-c", .os_reconfig, "hugepages",
   [("resource_type", "memory"), ("target_value", "16384")], .medium, none⟩

/-- A second command reusing the id of `cmdA`. -/
def cmdDup : Command :=
  ⟨"cmd-a", .restart, "instance-2", [], .critical, none⟩

/-- A low-priority config change against the same target as `cmdB`. -/
def cmdD : Command :=
  ⟨"cmd-d", .config_change, "iris.cpf",
   [("section", "config"), ("key", "routines"), ("value", "60")], .low, none⟩

/-- A payload for `cmdB` as received over the wire. -/
def rawGoodB : RawCommand :=
  ⟨"cmd-b", "config_change", "iris.cpf",
   [("section", "Startup"), ("key", "globals"), ("value", "20000")],
   some "critical", none⟩

/-- A payload for `cmdD` as received over the wire. -/
def rawGoodD : RawCommand :=
  ⟨"cmd-d", "config_change", "iris.cpf",
   [("section", "config"), ("key", "routines"), ("value", "60")],
   some "low", none⟩

/-- A config-change payload missing the required `value` parameter. -/
def rawBad : RawCommand :=
  ⟨"r-1", "config_change", "iris.cpf",
   [("section", "Startup"), ("key", "globals")], some "high", none⟩

/-- A CPF with `Startup.globals = 10000`. -/
def cpfEx : CPF := [("Startup", [("globals", "10000")])]

/-- Store state holding `cpfEx` with an empty backup directory. -/
def stEx : CPFState := ⟨cpfEx, []⟩

/-- Write oracle where every effect succeeds. -/
def envGood : WriteEnv := ⟨true, "backup-1", true, true⟩

/-- Restart oracle where every stage succeeds. -/
def envRestartOk : RestartEnv :=
  ⟨fun _ => 5, fun _ _ => true, true, "operational", 1, 2⟩

/-- Restart oracle where the shutdown fails. -/
def envShutFail : RestartEnv :=
  ⟨fun _ => 5, fun _ _ => false, true, "operational", 1, 2⟩

/-- The receiver state represents the abstract command list `l`: the order
list holds the ids of `l`, the dict resolves each queued id to its command,
and the dict keys are exactly the queued ids. -/
def Sim (st : ReceiverState) (l : List Command) : Prop :=
  st.command_order = cmd_ids l ∧
  (∀ c ∈ l, alist_get st.command_queue c.command_id = some c) ∧
  List.Perm (st.command_queue.map Prod.fst) (cmd_ids l)

/-! ## Dict lemmas -/

theorem alist_get_set_eq {α : Type} (d : List (String × α)) (k : String) (v : α) :
    alist_get (alist_set d k v) k = some v := by
  induction d with
  | nil => simp [alist_set, alist_get, List.find?]
  | cons kv rest ih =>
    by_cases h : kv.1 = k
    · simp [alist_set, alist_get, List.find?, h]
    · simpa [alist_set, alist_get, List.find?, h] using ih

theorem alist_get_set_ne {α : Type} (d : List (String × α)) (k k' : String) (v : α)
    (h : k' ≠ k) : alist_get (alist_set d k v) k' = alist_get d k' := by
  have hb : (k == k') = false := beq_eq_false_iff_ne.mpr (Ne.symm h)
  induction d with
  | nil => simp [alist_set, alist_get, List.find?, hb]
  | cons kv rest ih =>
    by_cases hk : kv.1 = k
    · have hb2 : (kv.1 == k) = true := beq_iff_eq.mpr hk
      have hb3 : (kv.1 == k') = false := by
        rw [hk]; exact hb
      simp [alist_set, alist_get, List.find?, hb2, hb3, hb]
    · have hb2 : (kv.1 == k) = false := beq_eq_false_iff_ne.mpr hk
      by_cases hk' : kv.1 = k'
      · have hb3 : (kv.1 == k') = true := beq_iff_eq.mpr hk'
        simp [alist_set, alist_get, List.find?, hb2, hb3]
      · have hb3 : (kv.1 == k') = false := beq_eq_false_iff_ne.mpr hk'
        simpa [alist_set, alist_get, List.find?, hb2, hb3] using ih

theorem alist_set_keys_not_mem {α : Type} (d : List (String × α)) (k : String)
    (v : α) (h : k ∉ d.map Prod.fst) :
    (alist_set d k v).map Prod.fst = d.map Prod.fst ++ [k] := by
  induction d with
  | nil => simp [alist_set]
  | cons kv rest ih =>
    simp only [List.map_cons, List.mem_cons] at h
    push_neg at h
    have hb : (kv.1 == k) = false := beq_eq_false_iff_ne.mpr (Ne.symm h.1)
    simp [alist_set, hb, ih h.2]

theorem alist_pop_spec {α : Type} (d : List (String × α)) (k : String) (v : α)
    (hnd : (d.map Prod.fst).Nodup) (hg : alist_get d k = some v) :
    ∃ d', alist_pop d k = some (v, d') ∧
      (∀ k', k' ≠ k → alist_get d' k' = alist_get d k') ∧
      List.Perm (d.map Prod.fst) (k :: d'.map Prod.fst) := by
  induction d with
  | nil => simp [alist_get, List.find?] at hg
  | cons kv rest ih =>
    by_cases h : kv.1 = k
    · have hb : (kv.1 == k) = true := beq_iff_eq.mpr h
      have hv : kv.2 = v := by
        simpa [alist_get, List.find?, hb] using hg
      refine ⟨rest, by simp [alist_pop, hb, hv], fun k' hk' => ?_, by simp [h]⟩
      have hb' : (kv.1 == k') = false := by
        rw [h]; exact beq_eq_false_iff_ne.mpr (Ne.symm hk')
      simp [alist_get, List.find?, hb']
    · have hb : (kv.1 == k) = false := beq_eq_false_iff_ne.mpr h
      have hg' : alist_get rest k = some v := by
        simpa [alist_get, List.find?, hb] using hg
      obtain ⟨dtail, hpop, hlook, hperm⟩ :=
        ih (by simpa using hnd.of_cons) hg'
      refine ⟨kv :: dtail, by simp [alist_pop, hb, hpop], fun k' hk' => ?_, ?_⟩
      · by_cases hkk : kv.1 = k'
        · have hb' : (kv.1 == k') = true := beq_iff_eq.mpr hkk
          simp [alist_get, List.find?, hb']
        · have hb' : (kv.1 == k') = false := beq_eq_false_iff_ne.mpr hkk
          simpa [alist_get, List.find?, hb'] using hlook k' hk'
      · simp only [List.map_cons]
        exact (hperm.cons kv.1).trans (List.Perm.swap k kv.1 _)

/-! ## Lemmas about the abstract insertion -/

theorem abs_insert_perm (c : Command) (l : List Command) :
    List.Perm (abs_insert c l) (c :: l) := by
  induction l with
  | nil => simp [abs_insert]
  | cons x xs ih =>
    simp only [abs_insert]
    split
    · exact .refl _
    · exact (ih.cons x).trans (List.Perm.swap _ _ _)

theorem mem_abs_insert {c x : Command} {l : List Command} :
    x ∈ abs_insert c l ↔ x = c ∨ x ∈ l := by
  rw [(abs_insert_perm c l).mem_iff, List.mem_cons]

theorem abs_insert_pairwise {c : Command} {l : List Command}
    (h : l.Pairwise rank_le) : (abs_insert c l).Pairwise rank_le := by
  induction l with
  | nil => simp [abs_insert, rank_le]
  | cons x xs ih =>
    obtain ⟨hx, hxs⟩ := List.pairwise_cons.mp h
    simp only [abs_insert]
    split
    · rename_i hlt
      refine List.Pairwise.cons ?_ h
      intro y hy
      rcases List.mem_cons.mp hy with rfl | hy
      · exact Nat.le_of_lt hlt
      · exact Nat.le_trans (Nat.le_of_lt hlt) (hx y hy)
    · rename_i hge
      refine List.Pairwise.cons ?_ (ih hxs)
      intro y hy
      rcases mem_abs_insert.mp hy with rfl | hy
      · exact Nat.le_of_not_lt hge
      · exact hx y hy

theorem abs_insert_filter_neg {c : Command} {l : List Command}
    {p : Command → Bool} (hc : p c = false) :
    (abs_insert c l).filter p = l.filter p := by
  induction l with
  | nil => simp [abs_insert, hc]
  | cons x xs ih =>
    simp only [abs_insert]
    split
    · simp [List.filter_cons, hc]
    · simp only [List.filter_cons]
      cases p x <;> simp [ih]

theorem abs_insert_filter_pos {c : Command} {l : List Command} {pr : Priority}
    (hsort : l.Pairwise rank_le) (hc : c.priority = pr) :
    (abs_insert c l).filter (fun x => x.priority == pr)
      = l.filter (fun x => x.priority == pr) ++ [c] := by
  induction l with
  | nil => simp [abs_insert, hc]
  | cons x xs ih =>
    obtain ⟨hx, hxs⟩ := List.pairwise_cons.mp hsort
    simp only [abs_insert]
    split
    · rename_i hlt
      have hnil : (x :: xs).filter (fun y => y.priority == pr) = [] := by
        rw [List.filter_eq_nil_iff]
        intro y hy
        simp only [beq_iff_eq]
        intro hpy
        have hrank : priorityRank x.priority ≤ priorityRank y.priority := by
          rcases List.mem_cons.mp hy with rfl | hy
          · exact Nat.le_refl _
          · exact hx y hy
        rw [hpy, ← hc] at hrank
        exact absurd (Nat.lt_of_lt_of_le hlt hrank) (Nat.lt_irrefl _)
      simp [List.filter_cons, hc, hnil]
    · simp only [List.filter_cons]
      cases hpx : (x.priority == pr) <;> simp [ih hxs]

theorem priority_sort_go_perm (cs : List Command) :
    ∀ l : List Command,
      List.Perm (cs.foldl (fun a c => abs_insert c a) l) (l ++ cs) := by
  induction cs with
  | nil => intro l; simp
  | cons c cs ih =>
    intro l
    refine (ih (abs_insert c l)).trans ?_
    refine (((abs_insert_perm c l).append_right cs).trans ?_)
    exact List.perm_middle.symm

theorem priority_sort_perm (cs : List Command) :
    List.Perm (priority_sort cs) cs := by
  simpa [priority_sort] using priority_sort_go_perm cs []

theorem priority_sort_go_pairwise (cs : List Command) :
    ∀ l : List Command, l.Pairwise rank_le →
      (cs.foldl (fun a c => abs_insert c a) l).Pairwise rank_le := by
  induction cs with
  | nil => intro l h; simpa using h
  | cons c cs ih => intro l h; exact ih _ (abs_insert_pairwise h)

theorem priority_sort_pairwise (cs : List Command) :
    (priority_sort cs).Pairwise rank_le :=
  priority_sort_go_pairwise cs [] (by simp)

theorem priority_sort_go_filter (pr : Priority) (cs : List Command) :
    ∀ l : List Command, l.Pairwise rank_le →
      (cs.foldl (fun a c => abs_insert c a) l).filter (fun x => x.priority == pr)
        = l.filter (fun x => x.priority == pr)
          ++ cs.filter (fun x => x.priority == pr) := by
  induction cs with
  | nil => intro l _; simp
  | cons c cs ih =>
    intro l h
    rw [List.foldl_cons, ih _ (abs_insert_pairwise h)]
    by_cases hc : c.priority = pr
    · rw [abs_insert_filter_pos h hc]
      simp [List.filter_cons, hc]
    · have hb : (c.priority == pr) = false := beq_eq_false_iff_ne.mpr hc
      rw [abs_insert_filter_neg hb]
      simp [List.filter_cons, hb]

/-- Stability: for each priority class, the sorted queue lists exactly the
commands of that class in arrival order. -/
theorem priority_sort_filter (cs : List Command) (pr : Priority) :
    (priority_sort cs).filter (fun x => x.priority == pr)
      = cs.filter (fun x => x.priority == pr) := by
  simpa [priority_sort] using priority_sort_go_filter pr cs [] (by simp)

/-! ## Simulation between the receiver state and the abstract queue -/

theorem cmd_ids_perm_abs_insert (c : Command) (l : List Command) :
    List.Perm (cmd_ids (abs_insert c l)) (c.command_id :: cmd_ids l) := by
  simpa [cmd_ids] using (abs_insert_perm c l).map (fun x => x.command_id)

theorem nodup_cmd_ids_cons {c : Command} {l : List Command}
    (hnd : (cmd_ids (c :: l)).Nodup) :
    c.command_id ∉ cmd_ids l ∧ (cmd_ids l).Nodup := by
  have := hnd
  simp only [cmd_ids, List.map_cons, List.nodup_cons] at this
  exact this

theorem Sim_empty : Sim empty_state [] := by
  refine ⟨rfl, by simp, by simp [empty_state, cmd_ids]⟩

theorem insert_scan_sim (q : List (String × Command)) (c : Command) :
    ∀ l : List Command, (∀ x ∈ l, alist_get q x.command_id = some x) →
      insert_order_scan q (priorityRank c.priority) c.command_id (cmd_ids l)
        = cmd_ids (abs_insert c l) := by
  intro l
  induction l with
  | nil => intro _; simp [insert_order_scan, abs_insert, cmd_ids]
  | cons x xs ih =>
    intro h
    have hx : alist_get q x.command_id = some x := h x (List.mem_cons_self x xs)
    have hxs : ∀ y ∈ xs, alist_get q y.command_id = some y :=
      fun y hy => h y (List.mem_cons_of_mem x hy)
    simp only [cmd_ids, List.map_cons] at *
    rw [insert_order_scan, hx]
    by_cases hlt : priorityRank c.priority < priorityRank x.priority
    · simp [abs_insert, hlt, cmd_ids]
    · simp only [if_neg hlt, abs_insert, List.map_cons]
      rw [ih hxs]

theorem Sim_enqueue {st : ReceiverState} {l : List Command} {c : Command}
    (h : Sim st l) (hid : c.command_id ∉ cmd_ids l) :
    Sim (enqueue st c) (abs_insert c l) := by
  obtain ⟨ho, hl, hk⟩ := h
  have hne : ∀ x ∈ l, x.command_id ≠ c.command_id := by
    intro x hx heq
    exact hid (heq ▸ List.mem_map_of_mem (·.command_id) hx)
  have hq : ∀ x ∈ l,
      alist_get (alist_set st.command_queue c.command_id c) x.command_id
        = some x := by
    intro x hx
    rw [alist_get_set_ne _ _ _ _ (hne x hx)]
    exact hl x hx
  have hidkeys : c.command_id ∉ st.command_queue.map Prod.fst := by
    intro hmem
    exact hid (hk.mem_iff.mp hmem)
  refine ⟨?_, ?_, ?_⟩
  · show insert_order_scan _ _ _ st.command_order = _
    rw [ho]
    exact insert_scan_sim _ c l hq
  · intro x hx
    rcases mem_abs_insert.mp hx with rfl | hx
    · exact alist_get_set_eq _ _ _
    · exact hq x hx
  · show List.Perm ((alist_set st.command_queue c.command_id c).map Prod.fst) _
    rw [alist_set_keys_not_mem _ _ _ hidkeys]
    refine (List.perm_append_singleton _ _).trans ?_
    refine (hk.cons c.command_id).trans ?_
    exact (cmd_ids_perm_abs_insert c l).symm

theorem Sim_dequeue {st : ReceiverState} {c : Command} {l : List Command}
    (h : Sim st (c :: l)) (hnd : (cmd_ids (c :: l)).Nodup) :
    ∃ st', get_next_command st = (.got c, st') ∧ Sim st' l := by
  obtain ⟨ho, hl, hk⟩ := h
  have hknd : (st.command_queue.map Prod.fst).Nodup :=
    (hk.nodup_iff).mpr hnd
  have hg : alist_get st.command_queue c.command_id = some c :=
    hl c (List.mem_cons_self c l)
  obtain ⟨q', hpop, hlook, hperm⟩ := alist_pop_spec _ _ _ hknd hg
  have hcid : c.command_id ∉ cmd_ids l := (nodup_cmd_ids_cons hnd).1
  refine ⟨⟨q', cmd_ids l⟩, ?_, ?_, ?_, ?_⟩
  · rw [get_next_command, ho]
    simp only [cmd_ids, List.map_cons]
    rw [hpop]
  · rfl
  · intro x hx
    have hxne : x.command_id ≠ c.command_id := by
      intro heq
      exact hcid (heq ▸ List.mem_map_of_mem (·.command_id) hx)
    rw [hlook x.command_id hxne]
    exact hl x (List.mem_cons_of_mem c hx)
  · have : List.Perm (c.command_id :: q'.map Prod.fst)
        (c.command_id :: cmd_ids l) := by
      refine hperm.symm.trans ?_
      simpa [cmd_ids] using hk
    exact this.cons_inv

theorem Sim_drain :
    ∀ (l : List Command) (st : ReceiverState), Sim st l → (cmd_ids l).Nodup →
      (dequeue_n st l.length).1 = l.map DequeueResult.got := by
  intro l
  induction l with
  | nil => intro st _ _; simp [dequeue_n]
  | cons c l ih =>
    intro st h hnd
    obtain ⟨st', hstep, hsim⟩ := Sim_dequeue h hnd
    have hnd' : (cmd_ids l).Nodup := (nodup_cmd_ids_cons hnd).2
    simp only [List.length_cons, dequeue_n, hstep, List.map_cons]
    rw [ih st' hsim hnd']

theorem Sim_enqueue_all :
    ∀ (cs : List Command) (st : ReceiverState) (l : List Command),
      Sim st l → (cmd_ids l ++ cmd_ids cs).Nodup →
      Sim (cs.foldl enqueue st) (cs.foldl (fun a c => abs_insert c a) l) := by
  intro cs
  induction cs with
  | nil => intro st l h _; simpa using h
  | cons c cs ih =>
    intro st l h hnd
    have hcl : c.command_id ∉ cmd_ids l := by
      intro hmem
      have := (List.nodup_append.mp hnd).2.2
      exact this hmem (by simp [cmd_ids])
    have hperm : List.Perm (cmd_ids l ++ cmd_ids (c :: cs))
        (cmd_ids (abs_insert c l) ++ cmd_ids cs) := by
      have h1 : List.Perm (cmd_ids (abs_insert c l))
          (c.command_id :: cmd_ids l) := by
        simpa [cmd_ids] using (abs_insert_perm c l).map (·.command_id)
      refine List.Perm.trans ?_ ((h1.symm).append_right (cmd_ids cs))
      show List.Perm (cmd_ids l ++ cmd_ids (c :: cs))
        ((c.command_id :: cmd_ids l) ++ cmd_ids cs)
      simp [cmd_ids]
    exact ih (enqueue st c) (abs_insert c l) (Sim_enqueue h hcl)
      (hperm.nodup_iff.mp hnd)

/-! ## Helper lemmas about validation -/

theorem validate_command_ok_params {raw : RawCommand} {c : Command}
    (h : validate_command raw = .ok c) :
    parse_action_type raw.action_type = some c.action_type ∧
    validate_parameters c.action_type raw.parameters = .ok () := by
  cases hpa : parse_action_type raw.action_type with
  | none => simp [validate_command, hpa] at h
  | some a =>
    simp only [validate_command, hpa] at h
    by_cases h1 : raw.target.length < 1
    · simp [h1] at h
    · by_cases h2 : raw.target.length > 100
      · simp [h1, h2] at h
      · simp only [if_neg h1, if_neg h2] at h
        cases hvp : validate_parameters a raw.parameters with
        | error e => simp [hvp] at h
        | ok u =>
          simp only [hvp] at h
          cases hpp : parse_priority raw.priority with
          | none => simp [hpp] at h
          | some p =>
            simp only [hpp] at h
            injection h with h'
            subst h'
            exact ⟨rfl, by cases u; exact hvp⟩

theorem validate_parameters_config_ok {ps : List (String × String)}
    (h : validate_parameters .config_change ps = .ok ()) :
    has_param ps "section" = true ∧ has_param ps "key" = true ∧
    has_param ps "value" = true := by
  simp only [validate_parameters] at h
  by_cases hall : (["section", "key", "value"].all (has_param ps)) = true
  · have := List.all_eq_true.mp hall
    exact ⟨this "section" (by simp), this "key" (by simp),
      this "value" (by simp)⟩
  · simp [hall] at h

/-! ## Claim theorems -/

/-- C7: `requires_restart(section, key)` is a pure function of two static
sets: it returns true iff the section is in the set Startup, config, or
the lower-cased key is in the set globals, routines, gmheap, locksiz,
genericheap, wijdir, database (case-insensitive key match, restart
regardless of section); all other combinations return false. In
particular `requires_restart "Startup" k` and `requires_restart "config" k`
are true for every key, `requires_restart "Other" "globals"` is true and
`requires_restart "Other" "unrelated"` is false. -/
theorem C7_requires_restart_static_sets :
    (∀ sec key : String,
      requires_restart sec key = true ↔
        (sec = "Startup" ∨ sec = "config" ∨
         str_lower key ∈ ["globals", "routines", "gmheap", "locksiz",
                          "genericheap", "wijdir", "database"])) ∧
    (∀ key : String, requires_restart "Startup" key = true) ∧
    (∀ key : String, requires_restart "config" key = true) ∧
    requires_restart "Other" "globals" = true ∧
    requires_restart "Other" "unrelated" = false := by
  refine ⟨?_, ?_, ?_, by decide, by decide⟩
  · intro sec key
    by_cases h1 : sec ∈ ["Startup", "config"]
    · have hr : sec = "Startup" ∨ sec = "config" := by simpa using h1
      simp only [requires_restart]
      rw [if_pos h1]
      exact iff_of_true rfl (by tauto)
    · have h1' : ¬(sec = "Startup" ∨ sec = "config") := by simpa using h1
      by_cases h2 : str_lower key ∈ ["globals", "routines", "gmheap",
          "locksiz", "genericheap", "wijdir", "database"]
      · simp only [requires_restart]
        rw [if_neg h1, if_pos h2]
        exact iff_of_true rfl (by tauto)
      · simp only [requires_restart]
        rw [if_neg h1, if_neg h2]
        constructor
        · intro hf; exact absurd hf (by simp)
        · intro hr
          rcases hr with h | h | h
          · exact absurd (Or.inl h) h1'
          · exact absurd (Or.inr h) h1'
          · exact absurd h h2
  · intro key; simp [requires_restart]
  · intro key; simp [requires_restart]

/-- C6: the deterministic rule-based router implements the fixed table —
`config_change` maps to agent `config` with risk `medium`, `os_reconfig`
to `os` with risk `high`, `restart` to `restart` with risk `high`, and
any unrecognized action type to agent `none` with risk `medium`;
`requires_validation` is true exactly when the computed risk is not
`low`, and the rationale string names the action type and the chosen
agent. -/
theorem C6_route_with_rules_table :
    ∀ cstr : String,
      route_with_rules "config_change" cstr =
        ⟨"config", cstr,
         "Rule-based routing: config_change maps to config agent",
         true, "medium"⟩ ∧
      route_with_rules "os_reconfig" cstr =
        ⟨"os", cstr,
         "Rule-based routing: os_reconfig maps to os agent",
         true, "high"⟩ ∧
      route_with_rules "restart" cstr =
        ⟨"restart", cstr,
         "Rule-based routing: restart maps to restart agent",
         true, "high"⟩ ∧
      (∀ a : String, a ≠ "config_change" → a ≠ "os_reconfig" → a ≠ "restart" →
        (route_with_rules a cstr).agent_type = "none" ∧
        (route_with_rules a cstr).estimated_risk = "medium") ∧
      (∀ a : String,
        (route_with_rules a cstr).requires_validation = true ↔
        (route_with_rules a cstr).estimated_risk ≠ "low") ∧
      (∀ a : String,
        (route_with_rules a cstr).rationale =
          "Rule-based routing: " ++ a ++ " maps to "
            ++ (route_with_rules a cstr).agent_type ++ " agent") := by
  intro cstr
  refine ⟨rfl, rfl, rfl, ?_, ?_, fun a => rfl⟩
  · intro a h1 h2 h3
    have hb1 : ("config_change" == a) = false :=
      beq_eq_false_iff_ne.mpr (Ne.symm h1)
    have hb2 : ("os_reconfig" == a) = false :=
      beq_eq_false_iff_ne.mpr (Ne.symm h2)
    have hb3 : ("restart" == a) = false :=
      beq_eq_false_iff_ne.mpr (Ne.symm h3)
    constructor <;>
      simp [route_with_rules, agent_map, risk_map, alist_get, List.find?,
        hb1, hb2, hb3]
  · intro a
    by_cases hr : (alist_get risk_map a).getD "medium" = "low" <;>
      simp [route_with_rules, hr]

/-- C9: routing is idempotent on the authoritative deterministic path
(the advisory classifier is modelled as an oracle; `none` is the fallback
the spec's correctness properties hold against): routing the same command
twice yields the same agent type and the same estimated risk, and for a
`restart` command both routings yield agent `restart` with risk `high`. -/
theorem C9_routing_idempotent :
    ∀ (o1 o2 : Option RoutingDecision) (a cstr : String),
      o1 = none → o2 = none →
      ((orchestrate o1 a cstr).agent_type = (orchestrate o2 a cstr).agent_type ∧
       (orchestrate o1 a cstr).estimated_risk
         = (orchestrate o2 a cstr).estimated_risk) ∧
      (a = "restart" →
        (orchestrate o1 a cstr).agent_type = "restart" ∧
        (orchestrate o1 a cstr).estimated_risk = "high" ∧
        (orchestrate o2 a cstr).agent_type = "restart" ∧
        (orchestrate o2 a cstr).estimated_risk = "high") := by
  rintro o1 o2 a cstr rfl rfl
  refine ⟨⟨rfl, rfl⟩, ?_⟩
  rintro rfl
  exact ⟨rfl, rfl, rfl, rfl⟩

/-- C9 witness: routing a `restart` command on the fallback path. -/
theorem C9_witness :
    (orchestrate none "restart" "cmd-json").agent_type = "restart" ∧
    (orchestrate none "restart" "cmd-json").estimated_risk = "high" := by
  have h := (C9_routing_idempotent none none "restart" "cmd-json" rfl rfl).2 rfl
  exact ⟨h.1, h.2.1⟩

/-- C6 witness: the table at an unrecognized action type. -/
theorem C6_witness :
    (route_with_rules "unknown_action" "cmd-json").agent_type = "none" ∧
    (route_with_rules "unknown_action" "cmd-json").estimated_risk = "medium" :=
  (C6_route_with_rules_table "cmd-json").2.2.2.1 "unknown_action"
    (by decide) (by decide) (by decide)

/-- C4: for every command payload that fails schema or parameter-shape
validation, `receive_command` returns status rejected carrying the
failure reason and leaves the receiver state exactly as it was — the
command is never partially queued. In particular every `config_change`
payload missing one of section, key, value is rejected with the queue
unchanged. -/
theorem C4_rejection_atomic :
    (∀ (st : ReceiverState) (raw : RawCommand) (e : String),
      validate_command raw = .error e →
      receive_command st raw =
        ({ status := .rejected, command_id := none, queue_position := none,
           conflicts := none, error := some e }, st)) ∧
    (∀ (st : ReceiverState) (raw : RawCommand),
      raw.action_type = "config_change" →
      (has_param raw.parameters "section" = false ∨
       has_param raw.parameters "key" = false ∨
       has_param raw.parameters "value" = false) →
      (receive_command st raw).1.status = .rejected ∧
      (receive_command st raw).2 = st) := by
  constructor
  · intro st raw e h
    simp [receive_command, h]
  · intro st raw hat hmiss
    cases hv : validate_command raw with
    | error e => simp [receive_command, hv]
    | ok c =>
      exfalso
      obtain ⟨hpa, hvp⟩ := validate_command_ok_params hv
      rw [hat] at hpa
      have hac : c.action_type = ActionType.config_change := by
        simpa [parse_action_type] using hpa.symm
      rw [hac] at hvp
      obtain ⟨hs, hk, hval⟩ := validate_parameters_config_ok hvp
      rcases hmiss with hm | hm | hm <;> simp_all

/-- C4 witness: a `config_change` payload missing `value` is rejected and
the queue is untouched. -/
theorem C4_witness :
    (receive_command empty_state rawBad).1.status = ReceiveStatus.rejected ∧
    (receive_command empty_state rawBad).2 = empty_state :=
  C4_rejection_atomic.2 empty_state rawBad rfl (Or.inr (Or.inr (by decide)))

theorem write_setting_success_shape {env : WriteEnv} {st : CPFState}
    {sec key value : String}
    (h : (write_setting env st sec key value true).success = true) :
    write_setting env st sec key value true =
      ⟨true, some env.backupName,
       ⟨cpf_set st.live sec key value,
        alist_set st.backups env.backupName st.live⟩,
       [.backupCreated env.backupName, .persisted]⟩ := by
  by_cases hb : env.backupOk
  · by_cases hr : env.readOk
    · by_cases hp : env.persistOk
      · simp [write_setting, write_after_backup, hb, hr, hp]
      · simp [write_setting, write_after_backup, write_fail,
          hb, hr, hp] at h
    · simp [write_setting, write_after_backup, write_fail, hb, hr] at h
  · simp [write_setting, hb] at h

/-- C3: for every config change whose write succeeds but whose post-write
store validation fails, the handler restores the just-created backup and
returns failure with the distinct message "CPF validation failed, changes
rolled back", and a subsequent `read_setting` on the same section and key
returns the pre-write value. -/
theorem C3_config_rollback_roundtrip :
    ∀ (env : ConfigEnv) (st : CPFState) (sec key value : String),
      (write_setting env.write st sec key value true).success = true →
      env.validateOk = false →
      (config_execute env st sec key value).resp.success = false ∧
      (config_execute env st sec key value).resp.error_message
        = some "CPF validation failed, changes rolled back" ∧
      FileOp.restored env.write.backupName
        ∈ (config_execute env st sec key value).trace ∧
      read_setting (config_execute env st sec key value).state sec key
        = read_setting st sec key := by
  intro env st sec key value hw hv
  have hshape := write_setting_success_shape hw
  have hrestore :
      restore_backup
        ⟨cpf_set st.live sec key value,
         alist_set st.backups env.write.backupName st.live⟩
        env.write.backupName
      = (true, ⟨st.live, alist_set st.backups env.write.backupName st.live⟩) := by
    simp [restore_backup, alist_get_set_eq]
  simp only [config_execute, hshape, hv]
  simp [hrestore, read_setting]

/-- C3 witness: write succeeds, validation fails, and the store reads back
the pre-write value. -/
theorem C3_witness :
    read_setting
      (config_execute ⟨envGood, false⟩ stEx "Startup" "globals" "20000").state
      "Startup" "globals"
      = read_setting stEx "Startup" "globals" :=
  (C3_config_rollback_roundtrip ⟨envGood, false⟩ stEx "Startup" "globals"
    "20000" (by decide) rfl).2.2.2

/-- C8: for every restart invocation the returned success is true iff the
post-startup validation stage ran and reported operational; a failed
shutdown short-circuits with status shutdown_failed and a startup
duration of 0 with the startup stage never attempted, a failed startup
short-circuits with status startup_failed with the validation stage never
attempted; and every forced-mode restart reports 0 connections drained
with no drain stage executed. -/
theorem C8_restart_stage_machine :
    ∀ (env : RestartEnv) (t : Nat),
      (((graceful_restart env t).1.success = true ↔
          (Stage.validate ∈ (graceful_restart env t).2 ∧
           env.validateResult = "operational")) ∧
       (env.shutdownResult true (t / 2) = false →
          (graceful_restart env t).1.operational_status = "shutdown_failed" ∧
          (graceful_restart env t).1.startup_duration_seconds = 0 ∧
          Stage.startup ∉ (graceful_restart env t).2) ∧
       (env.shutdownResult true (t / 2) = true → env.startupResult = false →
          (graceful_restart env t).1.operational_status = "startup_failed" ∧
          Stage.validate ∉ (graceful_restart env t).2)) ∧
      ((forced_restart env).1.connections_drained = 0 ∧
       Stage.drain ∉ (forced_restart env).2 ∧
       ((forced_restart env).1.success = true ↔
          (Stage.validate ∈ (forced_restart env).2 ∧
           env.validateResult = "operational")) ∧
       (env.shutdownResult false 10 = false →
          (forced_restart env).1.operational_status = "shutdown_failed" ∧
          (forced_restart env).1.startup_duration_seconds = 0) ∧
       (env.shutdownResult false 10 = true → env.startupResult = false →
          (forced_restart env).1.operational_status = "startup_failed" ∧
          Stage.validate ∉ (forced_restart env).2)) := by
  intro env t
  constructor
  · by_cases hs : env.shutdownResult true (t / 2)
    · by_cases hu : env.startupResult
      · refine ⟨?_, by simp [hs], by simp [hu]⟩
        simp [graceful_restart, hs, hu, beq_iff_eq]
      · refine ⟨?_, by simp [hs], fun _ _ => ?_⟩
        · simp [graceful_restart, hs, hu]
        · simp [graceful_restart, hs, hu]
    · refine ⟨?_, fun _ => ?_, by simp [hs]⟩
      · simp [graceful_restart, hs]
      · simp [graceful_restart, hs]
  · by_cases hs : env.shutdownResult false 10
    · by_cases hu : env.startupResult
      · refine ⟨?_, ?_, ?_, by simp [hs], by simp [hu]⟩ <;>
          simp [forced_restart, hs, hu, beq_iff_eq]
      · refine ⟨?_, ?_, ?_, by simp [hs], fun _ _ => ?_⟩ <;>
          simp [forced_restart, hs, hu]
    · refine ⟨?_, ?_, ?_, fun _ => ?_, by simp [hs]⟩ <;>
        simp [forced_restart, hs]

/-- C8 witness: a fully successful forced restart drains no connections,
and a failed graceful shutdown reports a zero startup duration. -/
theorem C8_witness :
    (forced_restart envRestartOk).1.connections_drained = 0 ∧
    (graceful_restart envShutFail 60).1.startup_duration_seconds = 0 :=
  ⟨(C8_restart_stage_machine envRestartOk 60).2.1,
   ((C8_restart_stage_machine envShutFail 60).1.2.1 rfl).2.1⟩

/-- C1: for every sequence of accepted commands (with the distinct ids the
data model guarantees), the queue dequeues exactly the stable priority
order `priority_sort` of the arrivals: dequeue results are sorted by
priority rank critical, high, medium, low, and within each priority class
arrival order is preserved (the filter by any priority is unchanged). In
particular enqueuing priorities low, critical, medium in that order
dequeues critical, medium, low. -/
theorem C1_priority_queue_dequeue_order :
    ∀ cs : List Command, (cmd_ids cs).Nodup →
      (dequeue_n (enqueue_all cs) cs.length).1
        = (priority_sort cs).map DequeueResult.got ∧
      (priority_sort cs).Pairwise rank_le ∧
      (∀ pr : Priority,
        (priority_sort cs).filter (fun x => x.priority == pr)
          = cs.filter (fun x => x.priority == pr)) ∧
      (dequeue_n (enqueue_all [cmdA, cmdB, cmdC]) 3).1
        = [.got cmdB, .got cmdC, .got cmdA] := by
  intro cs hnd
  have hsim : Sim (enqueue_all cs) (priority_sort cs) := by
    have h := Sim_enqueue_all cs empty_state [] Sim_empty
      (by simpa [cmd_ids] using hnd)
    simpa [enqueue_all, priority_sort] using h
  have hperm : List.Perm (cmd_ids (priority_sort cs)) (cmd_ids cs) := by
    simpa [cmd_ids] using (priority_sort_perm cs).map (fun x => x.command_id)
  have hnd' : (cmd_ids (priority_sort cs)).Nodup := hperm.nodup_iff.mpr hnd
  have hlen : cs.length = (priority_sort cs).length :=
    ((priority_sort_perm cs).length_eq).symm
  refine ⟨?_, priority_sort_pairwise cs,
    fun pr => priority_sort_filter cs pr, by decide⟩
  rw [hlen]
  exact Sim_drain _ _ hsim hnd'

/-- C1 witness: the concrete low, critical, medium arrival order. -/
theorem C1_witness :
    (dequeue_n (enqueue_all [cmdA, cmdB, cmdC])
        (List.length [cmdA, cmdB, cmdC])).1
      = (priority_sort [cmdA, cmdB, cmdC]).map DequeueResult.got :=
  (C1_priority_queue_dequeue_order [cmdA, cmdB, cmdC] (by decide)).1

/-- C5: for every pair of accepted commands with identical target strings
(and distinct ids), the second intake response reports a conflict while
the command is still enqueued (queue size 2), both commands remain
individually retrievable in priority order via `get_next_command`, and
conflict detection scans the queue before insertion, so the first command
— whose target equals its own — reports no conflict. -/
theorem C5_same_target_conflict :
    ∀ (r1 r2 : RawCommand) (c1 c2 : Command),
      validate_command r1 = .ok c1 → validate_command r2 = .ok c2 →
      c2.target = c1.target → c2.command_id ≠ c1.command_id →
      (receive_command empty_state r1).1.conflicts = some false ∧
      ((receive_command (receive_command empty_state r1).2 r2).1.conflicts
          = some true ∧
       get_queue_size
          (receive_command (receive_command empty_state r1).2 r2).2 = 2 ∧
       (dequeue_n
          (receive_command (receive_command empty_state r1).2 r2).2 2).1
          = (abs_insert c2 [c1]).map DequeueResult.got) ∧
      (abs_insert c2 [c1] =
        if priorityRank c2.priority < priorityRank c1.priority
        then [c2, c1] else [c1, c2]) := by
  intro r1 r2 c1 c2 h1 h2 ht hid
  have habs : abs_insert c2 [c1] =
      if priorityRank c2.priority < priorityRank c1.priority
      then [c2, c1] else [c1, c2] := by
    simp [abs_insert]
  have hsim1 : Sim (enqueue empty_state c1) [c1] := by
    have h := Sim_enqueue (c := c1) Sim_empty (by simp [cmd_ids])
    simpa [abs_insert] using h
  have hstep1 : (receive_command empty_state r1).2 = enqueue empty_state c1 := by
    simp [receive_command, h1]
  have hsim2 : Sim (enqueue (enqueue empty_state c1) c2) (abs_insert c2 [c1]) :=
    Sim_enqueue hsim1 (by simpa [cmd_ids] using hid)
  have hnd2 : (cmd_ids (abs_insert c2 [c1])).Nodup := by
    have hp : List.Perm (cmd_ids (abs_insert c2 [c1]))
        [c2.command_id, c1.command_id] := cmd_ids_perm_abs_insert c2 [c1]
    exact hp.nodup_iff.mpr (by simp [hid])
  have hconf1 : check_conflicts empty_state c1 = none := by
    simp [check_conflicts, empty_state, check_conflicts.go]
  have hconf2 : (check_conflicts (enqueue empty_state c1) c2).isSome = true := by
    obtain ⟨ho, hl, _⟩ := hsim1
    have hg : alist_get (enqueue empty_state c1).command_queue c1.command_id
        = some c1 := hl c1 (by simp)
    have hb : (c1.target == c2.target) = true := beq_iff_eq.mpr ht.symm
    simp [check_conflicts, ho, cmd_ids, check_conflicts.go, hg, hb]
  refine ⟨?_, ⟨?_, ?_, ?_⟩, habs⟩
  · simp [receive_command, h1, hconf1]
  · rw [hstep1]
    simp [receive_command, h2, hconf2]
  · rw [hstep1]
    have hord := hsim2.1
    have hlen2 : (abs_insert c2 [c1]).length = 2 :=
      (abs_insert_perm c2 [c1]).length_eq
    simp only [receive_command, h2]
    simp only [get_queue_size, hord, cmd_ids, List.length_map]
    exact hlen2
  · rw [hstep1]
    have hlen2 : (2 : Nat) = (abs_insert c2 [c1]).length :=
      ((abs_insert_perm c2 [c1]).length_eq).symm
    simp only [receive_command, h2]
    rw [hlen2]
    exact Sim_drain _ _ hsim2 hnd2

/-- C5 witness: two accepted config changes against `iris.cpf`, the second
of low priority, flag a conflict on the second. -/
theorem C5_witness :
    (receive_command (receive_command empty_state rawGoodB).2
        rawGoodD).1.conflicts = some true :=
  ((C5_same_target_conflict rawGoodB rawGoodD cmdB cmdD rfl rfl rfl
      (by decide)).2.1).1

/-- C10: queue consistency requires distinct ids — for every sequence of
accepted commands with pairwise distinct ids, the order list and the
id-keyed map stay in sync (equal sizes, every queued id resolves in the
map, and the next dequeue returns the command enqueued under the front
id); while if an accepted command reuses an id already in the queue, the
map entry of the first command is silently overwritten, the order list
keeps both positions, the first dequeue returns the second command, and
the later dequeue of the shared id fails with a `KeyError` instead of
returning the first command. -/
theorem C10_queue_map_sync_and_id_reuse :
    (∀ cs : List Command, (cmd_ids cs).Nodup →
      (enqueue_all cs).command_order.length
        = (enqueue_all cs).command_queue.length ∧
      (∀ cid ∈ (enqueue_all cs).command_order,
        ∃ c ∈ cs, c.command_id = cid ∧
          alist_get (enqueue_all cs).command_queue cid = some c) ∧
      (∀ (cid : String) (rest : List String),
        (enqueue_all cs).command_order = cid :: rest →
        ∃ c ∈ cs, c.command_id = cid ∧
          (get_next_command (enqueue_all cs)).1 = DequeueResult.got c)) ∧
    (∀ c1 c2 : Command, c2.command_id = c1.command_id →
      (enqueue_all [c1, c2]).command_order
        = [c1.command_id, c1.command_id] ∧
      (enqueue_all [c1, c2]).command_queue = [(c1.command_id, c2)] ∧
      (get_next_command (enqueue_all [c1, c2])).1 = DequeueResult.got c2 ∧
      (get_next_command (get_next_command (enqueue_all [c1, c2])).2).1
        = DequeueResult.keyError) := by
  constructor
  · intro cs hnd
    have hsim : Sim (enqueue_all cs) (priority_sort cs) := by
      have h := Sim_enqueue_all cs empty_state [] Sim_empty
        (by simpa [cmd_ids] using hnd)
      simpa [enqueue_all, priority_sort] using h
    obtain ⟨ho, hl, hk⟩ := hsim
    have hperm : List.Perm (cmd_ids (priority_sort cs)) (cmd_ids cs) := by
      simpa [cmd_ids] using (priority_sort_perm cs).map (fun x => x.command_id)
    have hnd' : (cmd_ids (priority_sort cs)).Nodup := hperm.nodup_iff.mpr hnd
    refine ⟨?_, ?_, ?_⟩
    · rw [ho, ← hk.length_eq, List.length_map]
    · intro cid hcid
      rw [ho] at hcid
      obtain ⟨c, hc, rfl⟩ := List.mem_map.mp hcid
      exact ⟨c, (priority_sort_perm cs).mem_iff.mp hc, rfl, hl c hc⟩
    · intro cid rest hhead
      rw [ho] at hhead
      cases hps : priority_sort cs with
      | nil => rw [hps] at hhead; simp [cmd_ids] at hhead
      | cons c l' =>
        rw [hps] at hhead
        simp only [cmd_ids, List.map_cons, List.cons.injEq] at hhead
        obtain ⟨st', hst', -⟩ :=
          Sim_dequeue (c := c) (l := l')
            (by rw [← hps]; exact ⟨ho, hl, hk⟩) (hps ▸ hnd')
        refine ⟨c, ?_, hhead.1, ?_⟩
        · exact (priority_sort_perm cs).mem_iff.mp (hps ▸ List.mem_cons_self c l')
        · rw [hst']
  · intro c1 c2 h
    have hb : (c1.command_id == c2.command_id) = true :=
      beq_iff_eq.mpr h.symm
    have hb2 : (c2.command_id == c2.command_id) = true := beq_iff_eq.mpr rfl
    have e1 : enqueue empty_state c1
        = ⟨[(c1.command_id, c1)], [c1.command_id]⟩ := by
      simp [enqueue, empty_state, alist_set, insert_order_scan]
    have hb3 : (c2.command_id == c1.command_id) = true := beq_iff_eq.mpr h
    have e2 : enqueue ⟨[(c1.command_id, c1)], [c1.command_id]⟩ c2
        = ⟨[(c2.command_id, c2)], [c1.command_id, c2.command_id]⟩ := by
      simp [enqueue, alist_set, hb, insert_order_scan, alist_get,
        List.find?, Nat.lt_irrefl, h]
    have hall : enqueue_all [c1, c2]
        = ⟨[(c2.command_id, c2)], [c1.command_id, c2.command_id]⟩ := by
      simp only [enqueue_all, List.foldl_cons, List.foldl_nil, e1, e2]
    have hpop1 : alist_pop [(c2.command_id, c2)] c1.command_id
        = some (c2, []) := by
      simp [alist_pop, hb3]
    refine ⟨?_, ?_, ?_, ?_⟩
    · rw [hall]; simp [h]
    · rw [hall]; simp [h]
    · rw [hall]
      simp only [get_next_command, hpop1]
    · rw [hall]
      simp only [get_next_command, hpop1]
      simp [get_next_command, alist_pop]

/-- C10 witness: reusing an id overwrites the map entry, the first dequeue
returns the second command, the second dequeue fails, and with distinct
ids the sizes agree. -/
theorem C10_witness :
    (get_next_command (enqueue_all [cmdA, cmdDup])).1
      = DequeueResult.got cmdDup ∧
    (get_next_command (get_next_command (enqueue_all [cmdA, cmdDup])).2).1
      = DequeueResult.keyError ∧
    (enqueue_all [cmdA, cmdB]).command_order.length
      = (enqueue_all [cmdA, cmdB]).command_queue.length :=
  ⟨(C10_queue_map_sync_and_id_reuse.2 cmdA cmdDup rfl).2.2.1,
   (C10_queue_map_sync_and_id_reuse.2 cmdA cmdDup rfl).2.2.2,
   (C10_queue_map_sync_and_id_reuse.1 [cmdA, cmdB] (by decide)).1⟩

end Hack2
